import Mathlib

/-! Verification development for the letta-switchboard scheduling core
(`src/app.py`, `src/scheduler.py`, `src/crypto_utils.py`).

Modelling conventions:
* Instants are minutes since the Unix epoch (UTC), as `Nat` for wall-clock
  field extraction and `Int` where offset arithmetic may go below the epoch.
* A client-supplied timestamp string (`execute_at`) is modelled by `Stamp`:
  the wall-clock minute count it displays plus its optional UTC offset, which
  is exactly the information `dateutil.parser.parse` recovers.  Python's
  `strftime` formats the wall-clock fields; comparison of aware datetimes
  compares instants; a naive datetime is normalised by setting its offset
  to UTC (`replace(tzinfo=timezone.utc)`).
* The sealed file store is an association list from structured paths to
  blobs; `Fernet.decrypt`/`json.loads` failures are the `Blob.corrupt` case.
* The tenant digest (`get_api_key_hash`, a truncated SHA-256) is modelled as
  an abstract deterministic key-derivation function; no claim depends on its
  cryptographic properties.
-/

namespace Switchboard

/-- Civil date `(year, month, day)` of a day count since 1970-01-01, the
standard Gregorian conversion; models the date fields Python's `datetime`
exposes for a UTC timestamp. -/
def civilFromDays (z : Nat) : Nat × Nat × Nat :=
  let z' := z + 719468
  let era := z' / 146097
  let doe := z' % 146097
  let yoe := (doe - doe / 1460 + doe / 36524 - doe / 146096) / 365
  let y := yoe + era * 400
  let doy := doe - (365 * yoe + yoe / 4 - yoe / 100)
  let mp := (5 * doy + 2) / 153
  let d := doy - (153 * mp + 2) / 5 + 1
  let m := if mp < 10 then mp + 3 else mp - 9
  (if m ≤ 2 then y + 1 else y, m, d)

/-- Minute-of-hour of a minute instant. -/
def minuteOf (t : Nat) : Nat := t % 60

/-- Hour-of-day of a minute instant. -/
def hourOf (t : Nat) : Nat := t / 60 % 24

/-- Day count since the epoch of a minute instant. -/
def daysOf (t : Nat) : Nat := t / 1440

/-- Day-of-week (0 = Sunday) of a minute instant; 1970-01-01 was a Thursday. -/
def dowOf (t : Nat) : Nat := (daysOf t + 4) % 7

/-- Month (1-12) of a minute instant. -/
def monthOf (t : Nat) : Nat := (civilFromDays (daysOf t)).2.1

/-- Day-of-month of a minute instant. -/
def domOf (t : Nat) : Nat := (civilFromDays (daysOf t)).2.2

/-- A parsed five-field cron expression: the admissible values of each field,
with `domStar`/`dowStar` recording whether the day fields were unrestricted
(`*`), which drives the standard or-semantics of the two day fields. -/
structure CronExpr where
  minutes : List Nat
  hours : List Nat
  doms : List Nat
  months : List Nat
  dows : List Nat
  domStar : Bool
  dowStar : Bool
deriving DecidableEq

/-- Whether minute instant `t` is a firing of cron expression `c`, with the
standard five-field semantics (day-of-month OR day-of-week when both are
restricted) used by the `croniter` library. -/
def cronMatches (c : CronExpr) (t : Nat) : Bool :=
  let dayOk :=
    match c.domStar, c.dowStar with
    | true, true => true
    | true, false => c.dows.contains (dowOf t)
    | false, true => c.doms.contains (domOf t)
    | false, false => c.doms.contains (domOf t) || c.dows.contains (dowOf t)
  c.minutes.contains (minuteOf t) && c.hours.contains (hourOf t)
    && c.months.contains (monthOf t) && dayOk

/-- Linear search for the first firing at or after minute `t`, with fuel;
models the bounded search `croniter.get_next` performs. -/
def cronNextFrom (c : CronExpr) : Nat → Nat → Option Nat
  | _, 0 => none
  | t, fuel + 1 => if cronMatches c t then some t else cronNextFrom c (t + 1) fuel

/-- Models `croniter(cron, anchor).get_next()`: the first firing strictly after
`anchor`, searched with the given fuel. -/
def cronGetNext (c : CronExpr) (anchor fuel : Nat) : Option Nat :=
  cronNextFrom c (anchor + 1) fuel

/-- A stored recurring schedule (`RecurringSchedule` in `src/models.py`);
`created_at`/`last_run` are written by the service as naive UTC. -/
structure RecurringSched where
  id : String
  agent_id : String
  api_key : String
  cron : CronExpr
  message : String
  role : String
  created_at : Nat
  last_run : Option Nat
deriving DecidableEq

/-- A client-supplied timestamp as `dateutil.parser.parse` sees it: the
wall-clock minute count of its printed fields and its UTC offset in minutes
(`none` for a naive timestamp). -/
structure Stamp where
  wall : Nat
  tzOffset : Option Int
deriving DecidableEq

/-- The instant a `Stamp` denotes once normalised to UTC; a naive stamp is
assumed UTC (`replace(tzinfo=timezone.utc)` in `src/scheduler.py`). -/
def Stamp.instant (s : Stamp) : Int := (s.wall : Int) - s.tzOffset.getD 0

/-- A stored one-time schedule (`OneTimeSchedule` in `src/models.py`); the
`executed` field is the defensively read flag that no code path ever sets. -/
structure OneTimeSched where
  id : String
  agent_id : String
  api_key : String
  execute_at : Stamp
  message : String
  role : String
  created_at : Nat
  executed : Bool
deriving DecidableEq

/-- The anchor `is_recurring_schedule_due` feeds to `croniter`: `last_run`
when present, else `created_at`. -/
def anchorOf (s : RecurringSched) : Nat := s.last_run.getD s.created_at

/-- Models `is_recurring_schedule_due` from `src/scheduler.py`: due iff `now` has
reached the firing `croniter.get_next` computes from the anchor.  `fuel`
bounds the library's internal search; the `none` branch corresponds to the
library exhausting its search window. -/
def is_recurring_schedule_due (fuel : Nat) (s : RecurringSched) (now : Nat) : Bool :=
  match cronGetNext s.cron (anchorOf s) fuel with
  | some nxt => decide (now ≥ nxt)
  | none => false

/-- Models `is_onetime_schedule_due` from `src/scheduler.py`: never due when the
`executed` flag is truthy, else due iff `now ≥ execute_at` as UTC instants. -/
def is_onetime_schedule_due (s : OneTimeSched) (now : Int) : Bool :=
  if s.executed then false
  else decide (now ≥ s.execute_at.instant)

/-- Modelled from the spec: `t` is the first cron firing strictly after `a`
(the spec-side characterisation C4 compares the code against). -/
def isFirstFiringAfter (c : CronExpr) (a t : Nat) : Prop :=
  a < t ∧ cronMatches c t = true ∧ ∀ u, a < u → cronMatches c u = true → t ≤ u

theorem cronNextFrom_spec (c : CronExpr) :
    ∀ fuel t r, cronNextFrom c t fuel = some r →
      t ≤ r ∧ cronMatches c r = true ∧ ∀ u, t ≤ u → u < r → cronMatches c u = false := by
  intro fuel
  induction fuel with
  | zero => intro t r h; simp [cronNextFrom] at h
  | succ n ih =>
    intro t r h
    rw [cronNextFrom] at h
    by_cases hm : cronMatches c t = true
    · rw [if_pos hm] at h
      cases h
      exact ⟨Nat.le_refl _, hm, fun u hu1 hu2 => absurd hu2 (by omega)⟩
    · rw [if_neg hm] at h
      obtain ⟨h1, h2, h3⟩ := ih (t + 1) r h
      refine ⟨by omega, h2, fun u hu1 hu2 => ?_⟩
      rcases Nat.eq_or_lt_of_le hu1 with he | hl
      · cases he; exact Bool.eq_false_iff.mpr hm
      · exact h3 u hl hu2

theorem cronGetNext_first (c : CronExpr) (a fuel r : Nat)
    (h : cronGetNext c a fuel = some r) : isFirstFiringAfter c a r := by
  obtain ⟨h1, h2, h3⟩ := cronNextFrom_spec c fuel (a + 1) r h
  refine ⟨by omega, h2, fun u hu1 hu2 => ?_⟩
  by_contra hlt
  have : cronMatches c u = false := h3 u (by omega) (by omega)
  rw [this] at hu2
  exact Bool.false_ne_true hu2

/-- C4: for every recurring schedule and instant, `is_recurring_schedule_due`
returns true iff `now` is at or after the first cron firing strictly after
the anchor (`last_run` when present, else `created_at`); in particular a
never-run schedule is not due before the first cron boundary after its
creation time. -/
theorem recurring_due_iff_first_firing (fuel : Nat) (s : RecurringSched) (now nxt : Nat)
    (h : cronGetNext s.cron (anchorOf s) fuel = some nxt) :
    (is_recurring_schedule_due fuel s now = true ↔ now ≥ nxt)
      ∧ isFirstFiringAfter s.cron (anchorOf s) nxt := by
  constructor
  · unfold is_recurring_schedule_due
    rw [h]
    simp
  · exact cronGetNext_first _ _ _ _ h

/-- The cron expression `* * * * *`: every field unrestricted. -/
def cronStarExample : CronExpr :=
  ⟨List.range 60, List.range 24, List.range' 1 31, List.range' 1 12, List.range 7, true, true⟩

/-- A concrete never-run recurring schedule used to instantiate theorems. -/
def recurringExample : RecurringSched :=
  ⟨"sched-1", "agent-1", "key-1", cronStarExample, "hello", "user", 0, none⟩

/-- Witness for C4 at `* * * * *`, creation at minute 0, now = minute 1. -/
theorem recurring_due_iff_first_firing_witness :
    (is_recurring_schedule_due 1 recurringExample 1 = true ↔ 1 ≥ 1)
      ∧ isFirstFiringAfter recurringExample.cron (anchorOf recurringExample) 1 :=
  recurring_due_iff_first_firing 1 recurringExample 1 1 (by decide)

/-- C5: a one-time schedule with the `executed` flag unset is due iff
`now ≥ execute_at` (inclusive at the boundary), and a record with the flag
set is never due. -/
theorem onetime_due_iff (s : OneTimeSched) (now : Int) :
    is_onetime_schedule_due s now = true
      ↔ (s.executed = false ∧ now ≥ s.execute_at.instant) := by
  unfold is_onetime_schedule_due
  cases h : s.executed <;> simp

/-! Section: The sealed file store  -/

/-- An execution result record as written by `save_execution_result`
(`src/app.py` line 776); `run_id`/`error` are present only when non-empty. -/
structure ExecutionResult where
  schedule_id : String
  schedule_type : String
  status : String
  agent_id : String
  message : String
  executed_at : Nat
  run_id : Option String
  error : Option String
deriving DecidableEq

/-- Tenant digest used as a path segment (`get_api_key_hash` in
`src/crypto_utils.py`, a truncated SHA-256): modelled as an abstract
deterministic derivation of the credential; no claim depends on its
cryptographic properties, only on it being a function of the key. -/
def get_api_key_hash (apiKey : String) : String := apiKey

/-- A structured storage path under the volume root, mirroring the layout
`schedules/recurring/<digest>/<id>.json`,
`schedules/one-time/<date>/<hour>/<digest>/<id>.json` and
`results/<digest>/<id>.json`. -/
inductive Path
  | recurring (digest : String) (id : String)
  | onetime (date : Nat × Nat × Nat) (hour : Nat) (digest : String) (id : String)
  | result (digest : String) (id : String)
deriving DecidableEq

/-- A sealed blob on disk: a well-formed sealed record of one of the three
kinds, or bytes that fail to unseal or parse. -/
inductive Blob
  | recBlob (s : RecurringSched)
  | oneBlob (s : OneTimeSched)
  | resBlob (r : ExecutionResult)
  | corrupt
deriving DecidableEq

/-- The store: an association list from paths to blobs; `storePut` keeps at
most one binding per path (file overwrite semantics). -/
abbrev Store := List (Path × Blob)

/-- Read the bytes at a path (`open(file_path, "rb")`); `none` is the
missing-file case. -/
def storeGet (st : Store) (p : Path) : Option Blob :=
  (st.find? (fun e => e.1 == p)).map (fun e => e.2)

/-- Overwrite the file at a path. -/
def storePut (st : Store) (p : Path) (b : Blob) : Store :=
  (p, b) :: st.filter (fun e => !(e.1 == p))

/-- Models `Path(file_path).unlink()` composed with the commit: removes the binding. -/
def storeErase (st : Store) (p : Path) : Store :=
  st.filter (fun e => !(e.1 == p))

/-- The exception `decrypt_json` raises on a corrupt or unsealable blob
(Fernet `InvalidToken` or a JSON parse error). -/
inductive StoreErr
  | invalidToken
deriving DecidableEq

/-- Models `decrypt_json` (`src/crypto_utils.py` line 46): returns the record, or
raises on a corrupt/unsealable blob (modelled as `Except.error`). -/
def decrypt_json : Blob → Except StoreErr Blob
  | Blob.corrupt => Except.error StoreErr.invalidToken
  | Blob.recBlob s => Except.ok (Blob.recBlob s)
  | Blob.oneBlob s => Except.ok (Blob.oneBlob s)
  | Blob.resBlob r => Except.ok (Blob.resBlob r)

/-- Models `load_schedule` (`src/app.py` line 91): only the missing-file case is
caught (`FileNotFoundError` becomes `None`); a decryption or parse failure
propagates out as an exception. -/
def load_schedule (st : Store) (p : Path) : Except StoreErr (Option Blob) :=
  match storeGet st p with
  | none => Except.ok none
  | some b => (decrypt_json b).map some

/-- Models `delete_schedule` (`src/app.py` line 101): unlink, returning whether the
file existed. -/
def delete_schedule (st : Store) (p : Path) : Store × Bool :=
  match storeGet st p with
  | some _ => (storeErase st p, true)
  | none => (st, false)

/-- A concrete store holding a single corrupt blob. -/
def corruptStore : Store := [(Path.recurring "t" "s1", Blob.corrupt)]

/-- C3 counterexample: at an explicit key whose file is corrupt, the store's
get operation raises an `InvalidToken` error past the boundary instead of
yielding NotFound, refuting the claim as stated. -/
theorem load_schedule_corrupt_raises :
    storeGet corruptStore (Path.recurring "t" "s1") = some Blob.corrupt
      ∧ load_schedule corruptStore (Path.recurring "t" "s1")
          = Except.error StoreErr.invalidToken
      ∧ load_schedule corruptStore (Path.recurring "t" "s1") ≠ Except.ok none := by
  refine ⟨?_, ?_, ?_⟩ <;>
    simp [corruptStore, load_schedule, storeGet, decrypt_json, List.find?, Except.map]

/-- C3 amended: for every key, a missing file yields NotFound and a sealed
well-formed record is returned, but a corrupt or unsealable file raises the
decryption error past the get boundary (only the list-style read paths used
by the sweep log and skip such records). -/
theorem load_schedule_cases (st : Store) (p : Path) :
    (storeGet st p = none → load_schedule st p = Except.ok none)
      ∧ (∀ b, storeGet st p = some b → b ≠ Blob.corrupt →
          load_schedule st p = Except.ok (some b))
      ∧ (storeGet st p = some Blob.corrupt →
          load_schedule st p = Except.error StoreErr.invalidToken) := by
  refine ⟨fun h => ?_, fun b hb hnc => ?_, fun h => ?_⟩
  · unfold load_schedule
    rw [h]
  · unfold load_schedule
    rw [hb]
    cases b with
    | corrupt => exact absurd rfl hnc
    | recBlob s => rfl
    | oneBlob s => rfl
    | resBlob r => rfl
  · unfold load_schedule
    rw [h]
    rfl

/-- Witness for C3 amended: the empty store yields NotFound at a key. -/
theorem load_schedule_cases_witness :
    load_schedule [] (Path.recurring "t" "s1") = Except.ok none :=
  (load_schedule_cases [] (Path.recurring "t" "s1")).1 rfl

/-! Section: Path derivation and the sweep's bucket scan  -/

/-- Date bucket of `get_onetime_schedule_path` (`src/app.py` line 73):
`strftime` formats the wall-clock fields of the parsed `execute_at` in the
timestamp's own timezone, with no conversion to UTC. -/
def onetimeBucketDate (ea : Stamp) : Nat × Nat × Nat := civilFromDays (daysOf ea.wall)

/-- Hour bucket of `get_onetime_schedule_path`, again from the wall-clock
fields of `execute_at` as parsed. -/
def onetimeBucketHour (ea : Stamp) : Nat := hourOf ea.wall

/-- Models `get_onetime_schedule_path`: one-time schedules live under a
date/hour/tenant bucket derived from `execute_at`. -/
def get_onetime_schedule_path (apiKey : String) (ea : Stamp) (id : String) : Path :=
  Path.onetime (onetimeBucketDate ea) (onetimeBucketHour ea) (get_api_key_hash apiKey) id

/-- Models `get_recurring_schedule_path`: recurring schedules live under the tenant
digest only. -/
def get_recurring_schedule_path (apiKey : String) (id : String) : Path :=
  Path.recurring (get_api_key_hash apiKey) id

/-- Models `list_onetime_schedules_for_time` (`src/app.py` line 187): every
decryptable one-time record in the given date/hour bucket, across all
tenants; corrupt blobs are logged and skipped. -/
def list_onetime_schedules_for_time (st : Store) (date : Nat × Nat × Nat) (hour : Nat) :
    List OneTimeSched :=
  st.filterMap (fun e =>
    match e with
    | (Path.onetime d h _ _, Blob.oneBlob s) =>
        if d = date ∧ h = hour then some s else none
    | _ => none)

/-- The one-time half of `check_and_execute_schedules` (`src/app.py` line
885): the sweep scans exactly the bucket of the current UTC date and hour. -/
def sweepOnetimeListing (st : Store) (now : Nat) : List OneTimeSched :=
  list_onetime_schedules_for_time st (civilFromDays (daysOf now)) (hourOf now)

/-- Modelled from the spec: the bucket prescribed for a one-time schedule is
the date and hour of `execute_at` interpreted in UTC (its normalised
instant); compare with `onetimeBucketDate`/`onetimeBucketHour` above. -/
def utcBucketOf (ea : Stamp) : (Nat × Nat × Nat) × Nat :=
  (civilFromDays (daysOf ea.instant.toNat), hourOf ea.instant.toNat)

/-! Section: Store algebra  -/

theorem storeGet_erase_self (st : Store) (p : Path) :
    storeGet (storeErase st p) p = none := by
  unfold storeGet storeErase
  rw [List.find?_eq_none.mpr]
  · rfl
  · intro e he
    have := (List.mem_filter.mp he).2
    simpa using this

theorem storeGet_erase_ne (st : Store) (p q : Path) (h : p ≠ q) :
    storeGet (storeErase st p) q = storeGet st q := by
  induction st with
  | nil => rfl
  | cons hd tl ih =>
    by_cases hq : hd.1 = q
    · have hp : (hd.1 == p) = false := by
        rw [hq]
        exact beq_false_of_ne (Ne.symm h)
      simp only [storeErase, storeGet, List.filter_cons, hp, Bool.not_false, if_pos,
        List.find?_cons]
      rw [show (hd.1 == q) = true from beq_iff_eq.mpr hq]
    · by_cases hp : hd.1 = p
      · have : (hd.1 == p) = true := beq_iff_eq.mpr hp
        simp only [storeErase, storeGet, List.filter_cons, this, Bool.not_true, if_neg,
          List.find?_cons, Bool.false_eq_true, not_false_eq_true]
        rw [show (hd.1 == q) = false from beq_false_of_ne hq]
        exact ih
      · have h1 : (hd.1 == p) = false := beq_false_of_ne hp
        have h2 : (hd.1 == q) = false := beq_false_of_ne hq
        simp only [storeErase, storeGet, List.filter_cons, h1, Bool.not_false, if_pos,
          List.find?_cons, h2]
        exact ih

theorem storeGet_put_self (st : Store) (p : Path) (b : Blob) :
    storeGet (storePut st p b) p = some b := by
  unfold storeGet storePut
  rw [List.find?_cons]
  simp

theorem storeGet_put_ne (st : Store) (p q : Path) (b : Blob) (h : p ≠ q) :
    storeGet (storePut st p b) q = storeGet st q := by
  unfold storePut
  show storeGet ((p, b) :: storeErase st p) q = storeGet st q
  unfold storeGet
  rw [List.find?_cons, show ((p, b).1 == q) = false from beq_false_of_ne h]
  exact storeGet_erase_ne st p q h

theorem filter_put_self (st : Store) (p : Path) (b : Blob) :
    (storePut st p b).filter (fun e => e.1 == p) = [(p, b)] := by
  unfold storePut
  rw [List.filter_cons]
  simp only [beq_self_eq_true, if_pos]
  rw [List.filter_filter]
  rw [List.filter_eq_nil_iff.mpr]
  intro e _
  cases h : (e.1 == p) <;> simp

theorem filter_key_erase_ne (st : Store) (p q : Path) (h : p ≠ q) :
    (storeErase st p).filter (fun e => e.1 == q) = st.filter (fun e => e.1 == q) := by
  unfold storeErase
  rw [List.filter_filter]
  induction st with
  | nil => rfl
  | cons hd tl ih =>
    rw [List.filter_cons, List.filter_cons, ih]
    by_cases hq : hd.1 = q
    · have h1 : (hd.1 == q) = true := beq_iff_eq.mpr hq
      have h2 : (hd.1 == p) = false := by
        rw [hq]; exact beq_false_of_ne (Ne.symm h)
      rw [h1, h2]
      simp
    · have h1 : (hd.1 == q) = false := beq_false_of_ne hq
      rw [h1]
      simp

/-! Section: The dispatch state machine (`execute_schedule`)  -/

/-- The two schedule kinds the dispatcher distinguishes. -/
inductive SType
  | recurring
  | oneTime
deriving DecidableEq

/-- The `schedule_type` string of each kind. -/
def typeName : SType → String
  | SType.recurring => "recurring"
  | SType.oneTime => "one-time"

/-- The value the external `execute_letta_message` call returns: a queued
run id on success, or the stringified exception on failure. -/
inductive SendRes
  | ok (run_id : String)
  | fail (msg : String)
deriving DecidableEq

/-- The value `execute_schedule` returns. -/
inductive Outcome
  | scheduleGone
  | lockFailed
  | sent (r : SendRes)
  | crashed (e : StoreErr)
deriving DecidableEq

/-- Ordered trace of the externally visible steps of one dispatch. -/
inductive Ev
  | deleted (p : Path)
  | updatedLastRun (p : Path) (now : Nat)
  | sendCall (agent_id : String) (api_key : String) (message : String) (role : String)
  | wroteResult (p : Path) (r : ExecutionResult)
deriving DecidableEq

/-- The `result_data` dict `save_execution_result` builds: the
`run_id`/`error` fields are added only when the strings are truthy. -/
def mkExecutionResult (schedule_id schedule_type agent_id message : String)
    (status : String) (now : Nat) (run_id error : String) : ExecutionResult :=
  { schedule_id := schedule_id, schedule_type := schedule_type, status := status,
    agent_id := agent_id, message := message, executed_at := now,
    run_id := if run_id = "" then none else some run_id,
    error := if error = "" then none else some error }

/-- Models `save_execution_result` (`src/app.py` line 776): builds the result record
and overwrites `results/<digest>/<schedule_id>.json`. -/
def save_execution_result (st : Store)
    (api_key schedule_id schedule_type agent_id message : String)
    (status : String) (now : Nat) (run_id error : String) :
    Store × ExecutionResult :=
  let r := mkExecutionResult schedule_id schedule_type agent_id message status now run_id error
  (storePut st (Path.result (get_api_key_hash api_key) schedule_id) (Blob.resBlob r), r)

/-- Models `schedule["last_run"] = datetime.utcnow().isoformat()` applied to the
loaded blob (meaningful only for a recurring record, the kind stored at
recurring paths). -/
def setLastRun (b : Blob) (now : Nat) : Blob :=
  match b with
  | Blob.recBlob s => Blob.recBlob { s with last_run := some now }
  | b => b

/-- The send-and-record tail of `execute_schedule` (`src/app.py` lines
734-772), entered after the claim step succeeded. -/
def dispatchAfterClaim (st : Store) (evs : List Ev)
    (schedule_id agent_id api_key message role : String) (stype : SType)
    (file_path : Path) (now : Nat) (send : SendRes) (termDeleteFault : Bool) :
    Store × List Ev × Outcome :=
  let evs := evs ++ [Ev.sendCall agent_id api_key message role]
  match send with
  | SendRes.ok run_id =>
      let pr := save_execution_result st api_key schedule_id (typeName stype)
        agent_id message "success" now run_id ""
      (pr.1, evs ++ [Ev.wroteResult (Path.result (get_api_key_hash api_key) schedule_id) pr.2],
        Outcome.sent (SendRes.ok run_id))
  | SendRes.fail msg =>
      let pr := save_execution_result st api_key schedule_id (typeName stype)
        agent_id message "failed" now "" msg
      let evs := evs ++ [Ev.wroteResult (Path.result (get_api_key_hash api_key) schedule_id) pr.2]
      match stype with
      | SType.recurring =>
          if termDeleteFault then (pr.1, evs, Outcome.sent (SendRes.fail msg))
          else (storeErase pr.1 file_path, evs ++ [Ev.deleted file_path],
            Outcome.sent (SendRes.fail msg))
      | SType.oneTime => (pr.1, evs, Outcome.sent (SendRes.fail msg))

/-- Models `execute_schedule` (`src/app.py` line 687) as a pure state transformer.
`send` is the outcome the external send call would return;
`claimDeleteFault` and `termDeleteFault` model I/O errors raised at the two
unlink/commit sites (`false` = the filesystem operation succeeds).  Returns
the post store, the ordered trace of store/network events, and the outcome. -/
def execute_schedule (st : Store)
    (schedule_id agent_id api_key message role : String)
    (stype : SType) (execute_at : Option Stamp) (now : Nat) (send : SendRes)
    (claimDeleteFault termDeleteFault : Bool) : Store × List Ev × Outcome :=
  let file_path :=
    match stype, execute_at with
    | SType.oneTime, some ea => get_onetime_schedule_path api_key ea schedule_id
    | _, _ => get_recurring_schedule_path api_key schedule_id
  match load_schedule st file_path with
  | Except.error e => (st, [], Outcome.crashed e)
  | Except.ok none => (st, [], Outcome.scheduleGone)
  | Except.ok (some blob) =>
      match stype with
      | SType.oneTime =>
          if claimDeleteFault then (st, [], Outcome.lockFailed)
          else
            dispatchAfterClaim (storeErase st file_path) [Ev.deleted file_path]
              schedule_id agent_id api_key message role SType.oneTime
              file_path now send termDeleteFault
      | SType.recurring =>
          dispatchAfterClaim (storePut st file_path (setLastRun blob now))
            [Ev.updatedLastRun file_path now]
            schedule_id agent_id api_key message role SType.recurring
            file_path now send termDeleteFault

/-- C2: dispatching a one-time schedule deletes the record before the
external send call: on a failed delete the dispatch returns the lock-failed
outcome with the store unchanged and no event at all (in particular the send
function is never invoked), and on a successful delete the event trace is
the deletion followed by the send, the store in which the send occurs no
longer holding the record. -/
theorem onetime_delete_before_send (st : Store)
    (schedule_id agent_id api_key message role : String)
    (ea : Stamp) (now : Nat) (send : SendRes) (tf : Bool) (s : OneTimeSched)
    (hload : storeGet st (get_onetime_schedule_path api_key ea schedule_id)
      = some (Blob.oneBlob s)) :
    execute_schedule st schedule_id agent_id api_key message role SType.oneTime (some ea)
        now send true tf = (st, [], Outcome.lockFailed)
      ∧ (∃ rest,
          (execute_schedule st schedule_id agent_id api_key message role SType.oneTime (some ea)
              now send false tf).2.1
            = Ev.deleted (get_onetime_schedule_path api_key ea schedule_id)
                :: Ev.sendCall agent_id api_key message role :: rest)
      ∧ storeGet (storeErase st (get_onetime_schedule_path api_key ea schedule_id))
          (get_onetime_schedule_path api_key ea schedule_id) = none := by
  have hl : load_schedule st (get_onetime_schedule_path api_key ea schedule_id)
      = Except.ok (some (Blob.oneBlob s)) := by
    unfold load_schedule
    rw [hload]
    rfl
  refine ⟨?_, ?_, storeGet_erase_self _ _⟩
  · simp only [execute_schedule, hl, if_pos]
  · cases send with
    | ok run_id =>
        refine ⟨[Ev.wroteResult (Path.result (get_api_key_hash api_key) schedule_id)
          ((save_execution_result (storeErase st (get_onetime_schedule_path api_key ea schedule_id))
            api_key schedule_id (typeName SType.oneTime) agent_id message "success" now
            run_id "").2)], ?_⟩
        simp [execute_schedule, hl, dispatchAfterClaim]
    | fail msg =>
        refine ⟨[Ev.wroteResult (Path.result (get_api_key_hash api_key) schedule_id)
          ((save_execution_result (storeErase st (get_onetime_schedule_path api_key ea schedule_id))
            api_key schedule_id (typeName SType.oneTime) agent_id message "failed" now
            "" msg).2)], ?_⟩
        simp [execute_schedule, hl, dispatchAfterClaim]

/-- A concrete pending one-time schedule and its store, used to instantiate
the dispatch theorems. -/
def schedC2 : OneTimeSched := ⟨"s2", "a2", "k2", ⟨100, none⟩, "m", "user", 0, false⟩

/-- Store holding exactly `schedC2` at its derived path. -/
def storeC2 : Store :=
  [(get_onetime_schedule_path "k2" ⟨100, none⟩ "s2", Blob.oneBlob schedC2)]

/-- Witness for C2 at a concrete store and schedule. -/
theorem onetime_delete_before_send_witness :
    execute_schedule storeC2 "s2" "a2" "k2" "m" "user" SType.oneTime (some ⟨100, none⟩)
        100 (SendRes.ok "r") true false = (storeC2, [], Outcome.lockFailed)
      ∧ (∃ rest,
          (execute_schedule storeC2 "s2" "a2" "k2" "m" "user" SType.oneTime (some ⟨100, none⟩)
              100 (SendRes.ok "r") false false).2.1
            = Ev.deleted (get_onetime_schedule_path "k2" ⟨100, none⟩ "s2")
                :: Ev.sendCall "a2" "k2" "m" "user" :: rest)
      ∧ storeGet (storeErase storeC2 (get_onetime_schedule_path "k2" ⟨100, none⟩ "s2"))
          (get_onetime_schedule_path "k2" ⟨100, none⟩ "s2") = none :=
  onetime_delete_before_send storeC2 "s2" "a2" "k2" "m" "user" ⟨100, none⟩ 100
    (SendRes.ok "r") false schedC2 (by decide)

/-- C6: a recurring dispatch whose send call fails (with a non-empty error
message, no filesystem faults) leaves the store without the schedule record
and with exactly one result entry for the schedule's id, a failed
`ExecutionResult` carrying that error; being absent, the schedule can never
be listed (hence never retried) by a later sweep. -/
theorem recurring_send_failure_terminates (st : Store)
    (schedule_id agent_id api_key message role : String) (now : Nat) (msg : String)
    (s : RecurringSched) (hmsg : msg ≠ "")
    (hload : storeGet st (get_recurring_schedule_path api_key schedule_id)
      = some (Blob.recBlob s)) :
    storeGet (execute_schedule st schedule_id agent_id api_key message role SType.recurring
        none now (SendRes.fail msg) false false).1
        (get_recurring_schedule_path api_key schedule_id) = none
      ∧ ((execute_schedule st schedule_id agent_id api_key message role SType.recurring
          none now (SendRes.fail msg) false false).1.filter
            (fun e => e.1 == Path.result (get_api_key_hash api_key) schedule_id)).length = 1
      ∧ ∃ r : ExecutionResult,
          storeGet (execute_schedule st schedule_id agent_id api_key message role SType.recurring
              none now (SendRes.fail msg) false false).1
            (Path.result (get_api_key_hash api_key) schedule_id) = some (Blob.resBlob r)
          ∧ r.status = "failed" ∧ r.error = some msg := by
  have hl : load_schedule st (get_recurring_schedule_path api_key schedule_id)
      = Except.ok (some (Blob.recBlob s)) := by
    unfold load_schedule
    rw [hload]
    rfl
  have hne : get_recurring_schedule_path api_key schedule_id
      ≠ Path.result (get_api_key_hash api_key) schedule_id := by
    unfold get_recurring_schedule_path
    intro h
    cases h
  have hstore : (execute_schedule st schedule_id agent_id api_key message role SType.recurring
      none now (SendRes.fail msg) false false).1
      = storeErase
          (storePut (storePut st (get_recurring_schedule_path api_key schedule_id)
            (setLastRun (Blob.recBlob s) now))
            (Path.result (get_api_key_hash api_key) schedule_id)
            (Blob.resBlob (mkExecutionResult schedule_id (typeName SType.recurring)
              agent_id message "failed" now "" msg)))
          (get_recurring_schedule_path api_key schedule_id) := by
    simp [execute_schedule, hl, dispatchAfterClaim, save_execution_result]
  refine ⟨?_, ?_, ?_⟩
  · rw [hstore]
    exact storeGet_erase_self _ _
  · rw [hstore]
    rw [filter_key_erase_ne _ _ _ hne]
    rw [filter_put_self]
    rfl
  · refine ⟨mkExecutionResult schedule_id (typeName SType.recurring)
      agent_id message "failed" now "" msg, ?_, rfl, ?_⟩
    · rw [hstore]
      rw [storeGet_erase_ne _ _ _ hne]
      exact storeGet_put_self _ _ _
    · simp [mkExecutionResult, hmsg]

/-- A concrete recurring schedule and its store, used to instantiate the
failure-termination theorem. -/
def schedC6 : RecurringSched := ⟨"s6", "a6", "k6", cronStarExample, "m", "user", 0, none⟩

/-- Store holding exactly `schedC6` at its derived path. -/
def storeC6 : Store := [(get_recurring_schedule_path "k6" "s6", Blob.recBlob schedC6)]

/-- Witness for C6 at a concrete store, schedule and error message. -/
theorem recurring_send_failure_terminates_witness :
    storeGet (execute_schedule storeC6 "s6" "a6" "k6" "m" "user" SType.recurring
        none 5 (SendRes.fail "boom") false false).1
        (get_recurring_schedule_path "k6" "s6") = none
      ∧ ((execute_schedule storeC6 "s6" "a6" "k6" "m" "user" SType.recurring
          none 5 (SendRes.fail "boom") false false).1.filter
            (fun e => e.1 == Path.result (get_api_key_hash "k6") "s6")).length = 1
      ∧ ∃ r : ExecutionResult,
          storeGet (execute_schedule storeC6 "s6" "a6" "k6" "m" "user" SType.recurring
              none 5 (SendRes.fail "boom") false false).1
            (Path.result (get_api_key_hash "k6") "s6") = some (Blob.resBlob r)
          ∧ r.status = "failed" ∧ r.error = some "boom" :=
  recurring_send_failure_terminates storeC6 "s6" "a6" "k6" "m" "user" 5 "boom" schedC6
    (by decide) (by decide)

/-! Section: Exactly-once for one-time dispatch under concurrency (C1)

The racing dispatches interleave at the granularity of the store's atomic
operations, which is the concurrency model the design relies on: the unlink
either removes the file (at most once per file) or raises
`FileNotFoundError`, which the dispatch catches and turns into its
lock-failed return.  Each dispatcher below has already loaded (observed)
the same due one-time record and runs the one-time branch of
`execute_schedule`: unlink, then send, then write its result.  -/

/-- Local control state of one one-time dispatch invocation. -/
inductive PC
  | atClaim
  | atSend
  | atRecord (sr : SendRes)
  | done (o : Outcome)
deriving DecidableEq

/-- Whether a dispatcher has reached (or passed) the send step. -/
def PC.reachedSend : PC → Bool
  | PC.atClaim => false
  | PC.atSend => true
  | PC.atRecord _ => true
  | PC.done (Outcome.sent _) => true
  | PC.done _ => false

/-- Whether a dispatcher has completed. -/
def PC.isDone : PC → Bool
  | PC.done _ => true
  | _ => false

/-- Global state: the shared store plus the control state of each of the
`n` concurrent dispatch invocations of the same one-time schedule. -/
structure CState (n : Nat) where
  store : Store
  procs : Fin n → PC

/-- The arguments the racing dispatches share (they were all spawned from
sweeps that listed the same due record). -/
structure DispatchArgs where
  schedule_id : String
  agent_id : String
  api_key : String
  message : String
  role : String
  execute_at : Stamp
  now : Nat

/-- The schedule path all racers re-derive. -/
def DispatchArgs.schedPath (a : DispatchArgs) : Path :=
  get_onetime_schedule_path a.api_key a.execute_at a.schedule_id

/-- The result path all racers write to. -/
def DispatchArgs.resPath (a : DispatchArgs) : Path :=
  Path.result (get_api_key_hash a.api_key) a.schedule_id

/-- The result record a one-time dispatch writes for send outcome `sr`. -/
def resultFor (schedule_id agent_id message : String) (now : Nat) : SendRes → ExecutionResult
  | SendRes.ok run_id =>
      mkExecutionResult schedule_id "one-time" agent_id message "success" now run_id ""
  | SendRes.fail msg =>
      mkExecutionResult schedule_id "one-time" agent_id message "failed" now "" msg

/-- One atomic step by one of the racing dispatches, mirroring the one-time
branch of `execute_schedule`: an atomic unlink that removes the file or
(when it is already gone) raises, which the code turns into the lock-failed
return; the send and the result write happen only after a successful
unlink. -/
inductive DStep (a : DispatchArgs) {n : Nat} : CState n → CState n → Prop
  | unlinkHit (i : Fin n) (s : CState n) (b : Blob)
      (hpc : s.procs i = PC.atClaim)
      (hpres : storeGet s.store a.schedPath = some b) :
      DStep a s ⟨storeErase s.store a.schedPath, Function.update s.procs i PC.atSend⟩
  | unlinkMiss (i : Fin n) (s : CState n)
      (hpc : s.procs i = PC.atClaim)
      (habs : storeGet s.store a.schedPath = none) :
      DStep a s ⟨s.store, Function.update s.procs i (PC.done Outcome.lockFailed)⟩
  | sendReturn (i : Fin n) (s : CState n) (sr : SendRes)
      (hpc : s.procs i = PC.atSend) :
      DStep a s ⟨s.store, Function.update s.procs i (PC.atRecord sr)⟩
  | writeResult (i : Fin n) (s : CState n) (sr : SendRes)
      (hpc : s.procs i = PC.atRecord sr) :
      DStep a s ⟨storePut s.store a.resPath
          (Blob.resBlob (resultFor a.schedule_id a.agent_id a.message a.now sr)),
        Function.update s.procs i (PC.done (Outcome.sent sr))⟩

/-- The inductive invariant of the race: senders are unique, a present
record means nobody has reached the send step, and any completed dispatch
implies the record is gone. -/
def raceInv (a : DispatchArgs) {n : Nat} (s : CState n) : Prop :=
  (∀ i j, (s.procs i).reachedSend = true → (s.procs j).reachedSend = true → i = j)
    ∧ ((storeGet s.store a.schedPath).isSome = true →
        ∀ i, (s.procs i).reachedSend = false)
    ∧ (∀ i, (s.procs i).isDone = true → storeGet s.store a.schedPath = none)

theorem schedPath_ne_resPath (a : DispatchArgs) : a.schedPath ≠ a.resPath := by
  unfold DispatchArgs.schedPath DispatchArgs.resPath get_onetime_schedule_path
  intro h
  cases h

theorem reachedSend_update {n : Nat} (procs : Fin n → PC) (i j : Fin n) (v : PC)
    (hj : (Function.update procs i v j).reachedSend = true) :
    (j = i ∧ v.reachedSend = true) ∨ (j ≠ i ∧ (procs j).reachedSend = true) := by
  by_cases h : j = i
  · subst h
    rw [Function.update_same] at hj
    exact Or.inl ⟨rfl, hj⟩
  · rw [Function.update_noteq h] at hj
    exact Or.inr ⟨h, hj⟩

theorem raceInv_step (a : DispatchArgs) {n : Nat} {s s' : CState n}
    (hstep : DStep a s s') (hinv : raceInv a s) : raceInv a s' := by
  obtain ⟨h1, h2, h3⟩ := hinv
  cases hstep with
  | unlinkHit i s b hpc hpres =>
      have habs : storeGet (storeErase s.store a.schedPath) a.schedPath = none :=
        storeGet_erase_self _ _
      have hallfalse : ∀ j, (s.procs j).reachedSend = false := by
        intro j
        exact h2 (by rw [hpres]; rfl) j
      refine ⟨?_, ?_, ?_⟩
      · intro j k hj hk
        dsimp only at hj hk
        rcases reachedSend_update _ _ _ _ hj with ⟨hje, _⟩ | ⟨_, hjold⟩
        · rcases reachedSend_update _ _ _ _ hk with ⟨hke, _⟩ | ⟨_, hkold⟩
          · rw [hje, hke]
          · rw [hallfalse k] at hkold
            exact absurd hkold (by simp)
        · rw [hallfalse j] at hjold
          exact absurd hjold (by simp)
      · intro hsome
        dsimp only at hsome
        rw [habs] at hsome
        simp at hsome
      · intro j _
        exact habs
  | unlinkMiss i s hpc habs =>
      refine ⟨?_, ?_, ?_⟩
      · intro j k hj hk
        dsimp only at hj hk
        rcases reachedSend_update _ _ _ _ hj with ⟨_, hv⟩ | ⟨_, hjold⟩
        · simp [PC.reachedSend] at hv
        · rcases reachedSend_update _ _ _ _ hk with ⟨_, hv⟩ | ⟨_, hkold⟩
          · simp [PC.reachedSend] at hv
          · exact h1 j k hjold hkold
      · intro hsome
        dsimp only at hsome
        rw [habs] at hsome
        simp at hsome
      · intro j _
        exact habs
  | sendReturn i s sr hpc =>
      have hpci : (s.procs i).reachedSend = true := by
        rw [hpc]
        rfl
      have hifree : storeGet s.store a.schedPath = none := by
        cases hcase : storeGet s.store a.schedPath with
        | none => rfl
        | some b =>
            have := h2 (by rw [hcase]; rfl) i
            rw [this] at hpci
            exact absurd hpci (by simp)
      refine ⟨?_, ?_, ?_⟩
      · intro j k hj hk
        dsimp only at hj hk
        rcases reachedSend_update _ _ _ _ hj with ⟨hje, _⟩ | ⟨_, hjold⟩
        · rcases reachedSend_update _ _ _ _ hk with ⟨hke, _⟩ | ⟨_, hkold⟩
          · rw [hje, hke]
          · rw [hje]
            exact h1 i k hpci hkold
        · rcases reachedSend_update _ _ _ _ hk with ⟨hke, _⟩ | ⟨_, hkold⟩
          · rw [hke]
            exact h1 j i hjold hpci
          · exact h1 j k hjold hkold
      · intro hsome
        dsimp only at hsome
        rw [hifree] at hsome
        simp at hsome
      · intro j _
        exact hifree
  | writeResult i s sr hpc =>
      have hpci : (s.procs i).reachedSend = true := by
        rw [hpc]
        rfl
      have hifree : storeGet s.store a.schedPath = none := by
        cases hcase : storeGet s.store a.schedPath with
        | none => rfl
        | some b =>
            have := h2 (by rw [hcase]; rfl) i
            rw [this] at hpci
            exact absurd hpci (by simp)
      have hkeep : storeGet (storePut s.store a.resPath
          (Blob.resBlob (resultFor a.schedule_id a.agent_id a.message a.now sr)))
          a.schedPath = none := by
        rw [storeGet_put_ne _ _ _ _ (Ne.symm (schedPath_ne_resPath a))]
        exact hifree
      refine ⟨?_, ?_, ?_⟩
      · intro j k hj hk
        dsimp only at hj hk
        rcases reachedSend_update _ _ _ _ hj with ⟨hje, _⟩ | ⟨_, hjold⟩
        · rcases reachedSend_update _ _ _ _ hk with ⟨hke, _⟩ | ⟨_, hkold⟩
          · rw [hje, hke]
          · rw [hje]
            exact h1 i k hpci hkold
        · rcases reachedSend_update _ _ _ _ hk with ⟨hke, _⟩ | ⟨_, hkold⟩
          · rw [hke]
            exact h1 j i hjold hpci
          · exact h1 j k hjold hkold
      · intro hsome
        dsimp only at hsome
        rw [hkeep] at hsome
        simp at hsome
      · intro j _
        exact hkeep

/-- C1: starting from any number of dispatch invocations that have all
observed the same due one-time record (still present in the store), in
every interleaving of their store operations at most one dispatch ever
reaches the send step, and once any of them completes, the schedule record
no longer exists in the store. -/
theorem onetime_exactly_once (a : DispatchArgs) (n : Nat) (b : Blob)
    (s0 s : CState n)
    (_hstore : storeGet s0.store a.schedPath = some b)
    (hprocs : ∀ i, s0.procs i = PC.atClaim)
    (hreach : Relation.ReflTransGen (DStep a) s0 s) :
    (∀ i j, (s.procs i).reachedSend = true → (s.procs j).reachedSend = true → i = j)
      ∧ (∀ i, (s.procs i).isDone = true → storeGet s.store a.schedPath = none) := by
  have hinv : raceInv a s := by
    induction hreach with
    | refl =>
        refine ⟨?_, ?_, ?_⟩
        · intro i j hi _
          rw [hprocs i] at hi
          simp [PC.reachedSend] at hi
        · intro _ i
          rw [hprocs i]
          rfl
        · intro i hi
          rw [hprocs i] at hi
          simp [PC.isDone] at hi
    | tail hsteps hstep ih =>
        exact raceInv_step a hstep ih
  exact ⟨hinv.1, hinv.2.2⟩

/-- Concrete race setup: two dispatchers over a one-record store. -/
def raceArgs : DispatchArgs := ⟨"s1", "a1", "k1", "m", "user", ⟨100, none⟩, 100⟩

/-- The due record the two racers in the witness observed. -/
def raceSched : OneTimeSched := ⟨"s1", "a1", "k1", ⟨100, none⟩, "m", "user", 0, false⟩

/-- Initial state of the concrete race. -/
def raceInit : CState 2 :=
  ⟨[(raceArgs.schedPath, Blob.oneBlob raceSched)], fun _ => PC.atClaim⟩

/-- Witness for C1 at the concrete two-dispatcher race, at its initial
state. -/
theorem onetime_exactly_once_witness :
    (∀ i j : Fin 2, (raceInit.procs i).reachedSend = true →
        (raceInit.procs j).reachedSend = true → i = j)
      ∧ (∀ i : Fin 2, (raceInit.procs i).isDone = true →
          storeGet raceInit.store raceArgs.schedPath = none) :=
  onetime_exactly_once raceArgs 2 (Blob.oneBlob raceSched) raceInit raceInit
    (by decide) (fun _ => rfl) Relation.ReflTransGen.refl

/-- A pending one-time schedule whose `execute_at` reads
2025-06-01T12:00:00-05:00, i.e. instant 2025-06-01T17:00:00Z. -/
def sched7 : OneTimeSched :=
  ⟨"s7", "agent-7", "key-7", ⟨29146320, some (-300)⟩, "msg", "user", 0, false⟩

/-- A store holding exactly `sched7`, at the path the create endpoint
derives for it. -/
def store7 : Store :=
  [(get_onetime_schedule_path "key-7" sched7.execute_at "s7", Blob.oneBlob sched7)]

/-- C7 failing input: `sched7` is due at its UTC instant (2025-06-01T17:00Z,
minute 29146620), its record is in the store, yet the sweep running at that
instant lists nothing, because the record was bucketed under the wall-clock
hour 12 of its `-05:00` timestamp while the sweep scans the UTC hour 17
bucket; the bucket is not derived from `execute_at` interpreted in UTC. -/
theorem onetime_bucket_miss :
    is_onetime_schedule_due sched7 29146620 = true
      ∧ storeGet store7 (get_onetime_schedule_path "key-7" sched7.execute_at "s7")
          = some (Blob.oneBlob sched7)
      ∧ sweepOnetimeListing store7 29146620 = []
      ∧ onetimeBucketHour sched7.execute_at = 12
      ∧ hourOf 29146620 = 17
      ∧ onetimeBucketDate sched7.execute_at = civilFromDays (daysOf 29146620)
      ∧ (onetimeBucketDate sched7.execute_at, onetimeBucketHour sched7.execute_at)
          ≠ utcBucketOf sched7.execute_at := by
  refine ⟨by decide, by decide, by decide, by decide, by decide, by decide, by decide⟩

/-! Section: Empty-directory cleanup (C9)

`cleanup_empty_directories` (`src/app.py` line 809) walks the directory
tree, not the record store, so it is modelled on the tree shape the code
creates: one-time buckets are date directories containing hour directories
containing tenant directories containing files, and the recurring side is
tenant directories containing files.  -/

/-- A tenant directory: its label and the schedule files inside it. -/
abbrev UserDir := String × List String

/-- An hour directory: its label and the tenant directories inside it. -/
abbrev HourDir := Nat × List UserDir

/-- A date directory: its label and the hour directories inside it. -/
abbrev DateDir := (Nat × Nat × Nat) × List HourDir

/-- The innermost pass: remove tenant directories with no files, returning
the survivors and how many directories were removed. -/
def cleanUsers (us : List UserDir) : List UserDir × Nat :=
  (us.filter (fun u => !u.2.isEmpty),
    us.length - (us.filter (fun u => !u.2.isEmpty)).length)

/-- One level of the bottom-up walk: clean every child directory with `f`,
then remove the directories whose cleaned contents are empty, accumulating
the removal count. -/
def levelClean {κ α : Type} (f : α → List β × Nat) (ds : List (κ × α)) :
    List (κ × List β) × Nat :=
  ((ds.map (fun d => (d.1, (f d.2).1))).filter (fun d => !d.2.isEmpty),
    (ds.map (fun d => (f d.2).2)).sum
      + (ds.length
        - ((ds.map (fun d => (d.1, (f d.2).1))).filter (fun d => !d.2.isEmpty)).length))

/-- The hour level of the one-time walk: clean tenant directories, then
remove hour directories left empty. -/
def cleanHours (hs : List HourDir) : List HourDir × Nat :=
  levelClean cleanUsers hs

/-- The date level of the one-time walk: process hour directories, then
remove date directories left empty. -/
def cleanDates (ds : List DateDir) : List DateDir × Nat :=
  levelClean cleanHours ds

/-- Models `cleanup_empty_directories`: the full housekeeping pass over the
one-time tree and the recurring tenant directories, returning the cleaned
trees and `removed_count`. -/
def cleanup_empty_directories (onetime : List DateDir) (recurtree : List UserDir) :
    (List DateDir × List UserDir) × Nat :=
  (((cleanDates onetime).1, (cleanUsers recurtree).1),
    (cleanDates onetime).2 + (cleanUsers recurtree).2)

theorem cleanUsers_idem (us : List UserDir) :
    cleanUsers (cleanUsers us).1 = ((cleanUsers us).1, 0) := by
  unfold cleanUsers
  rw [List.filter_filter]
  simp

/-- A level's survivors already have cleaned, non-empty contents, so a
second pass over them changes nothing and removes nothing, as soon as the
child cleaner is idempotent in the same sense. -/
theorem levelClean_idem {κ α : Type} (f : List α → List α × Nat)
    (hf : ∀ x, f (f x).1 = ((f x).1, 0)) (ds : List (κ × List α)) :
    levelClean f (levelClean f ds).1 = ((levelClean f ds).1, 0) := by
  have hF : ∀ d ∈ (levelClean f ds).1, f d.2 = (d.2, 0) := by
    intro d hd
    unfold levelClean at hd
    have hd1 := (List.mem_filter.mp hd).1
    obtain ⟨x, _, hx⟩ := List.mem_map.mp hd1
    have hd2 : d.2 = (f x.2).1 := by rw [← hx]
    rw [hd2, hf]
  have hP : ∀ d ∈ (levelClean f ds).1, (!d.2.isEmpty) = true := by
    intro d hd
    unfold levelClean at hd
    exact (List.mem_filter.mp hd).2
  have h1 : (levelClean f ds).1.map (fun d => (d.1, (f d.2).1)) = (levelClean f ds).1 := by
    have hG : ∀ d ∈ (levelClean f ds).1,
        (fun d : κ × List α => (d.1, (f d.2).1)) d = id d := by
      intro d hd
      show (d.1, (f d.2).1) = d
      rw [hF d hd]
    rw [List.map_congr_left hG, List.map_id]
  have h2 : (levelClean f ds).1.filter (fun d => !d.2.isEmpty) = (levelClean f ds).1 :=
    List.filter_eq_self.mpr hP
  have h3 : ((levelClean f ds).1.map (fun d => (f d.2).2)).sum = 0 := by
    apply List.sum_eq_zero
    intro x hx
    obtain ⟨d, hd, hdx⟩ := List.mem_map.mp hx
    rw [← hdx, hF d hd]
  set K := (levelClean f ds).1 with hK
  unfold levelClean
  rw [h1, h2, h3]
  simp

theorem cleanHours_idem (hs : List HourDir) :
    cleanHours (cleanHours hs).1 = ((cleanHours hs).1, 0) :=
  levelClean_idem cleanUsers cleanUsers_idem hs

theorem cleanDates_idem (ds : List DateDir) :
    cleanDates (cleanDates ds).1 = ((cleanDates ds).1, 0) :=
  levelClean_idem cleanHours cleanHours_idem ds

/-- C9: the empty-directory cleanup is idempotent: with no intervening
writes, a second pass leaves the directory trees identical and removes
nothing (`removed_count` is zero). -/
theorem cleanup_empty_directories_idem (onetime : List DateDir) (recurtree : List UserDir) :
    cleanup_empty_directories (cleanup_empty_directories onetime recurtree).1.1
        (cleanup_empty_directories onetime recurtree).1.2
      = ((cleanup_empty_directories onetime recurtree).1, 0) := by
  unfold cleanup_empty_directories
  rw [cleanDates_idem, cleanUsers_idem]
  simp

/-! Section: HTTP handlers: responses, deletes (C8, C10)  -/

/-- A JSON value, as far as the handlers' response bodies are concerned. -/
inductive JVal
  | s (v : String)
  | n (v : Nat)
  | stamp (v : Stamp)
  | cronVal (c : CronExpr)
  | optN (v : Option Nat)
  | optS (v : Option String)
deriving DecidableEq

/-- A JSON object: an ordered field list. -/
abbrev JObj := List (String × JVal)

/-- Whether an object carries a field with the given key. -/
def hasKey (k : String) (o : JObj) : Bool := o.any (fun kv => kv.1 == k)

/-- Models `dict.pop("api_key", None)` / `dict.copy()` then pop: the object without
that field. -/
def popKey (k : String) (o : JObj) : JObj := o.filter (fun kv => !(kv.1 == k))

/-- Models `model_dump` of a recurring schedule. -/
def recurringToDict (sc : RecurringSched) : JObj :=
  [("id", JVal.s sc.id), ("agent_id", JVal.s sc.agent_id),
   ("api_key", JVal.s sc.api_key), ("cron", JVal.cronVal sc.cron),
   ("message", JVal.s sc.message), ("role", JVal.s sc.role),
   ("created_at", JVal.n sc.created_at), ("last_run", JVal.optN sc.last_run)]

/-- Models `model_dump` of a one-time schedule. -/
def onetimeToDict (sc : OneTimeSched) : JObj :=
  [("id", JVal.s sc.id), ("agent_id", JVal.s sc.agent_id),
   ("api_key", JVal.s sc.api_key), ("execute_at", JVal.stamp sc.execute_at),
   ("message", JVal.s sc.message), ("role", JVal.s sc.role),
   ("created_at", JVal.n sc.created_at)]

/-- The stored dict of an execution result (it never carries `api_key`). -/
def resultToDict (r : ExecutionResult) : JObj :=
  [("schedule_id", JVal.s r.schedule_id), ("schedule_type", JVal.s r.schedule_type),
   ("status", JVal.s r.status), ("agent_id", JVal.s r.agent_id),
   ("message", JVal.s r.message), ("executed_at", JVal.n r.executed_at),
   ("run_id", JVal.optS r.run_id), ("error", JVal.optS r.error)]

/-- The dict a loaded blob deserialises to. -/
def blobToDict : Blob → JObj
  | Blob.recBlob s => recurringToDict s
  | Blob.oneBlob s => onetimeToDict s
  | Blob.resBlob r => resultToDict r
  | Blob.corrupt => []

/-- Models `schedule.get("api_key")` on a loaded dict. -/
def blobApiKey : Blob → Option String
  | Blob.recBlob s => some s.api_key
  | Blob.oneBlob s => some s.api_key
  | _ => none

/-- HTTP error statuses the handlers raise (the 401/403/404 aborts and the
unhandled-exception 500). -/
inductive HErr
  | unauthorized
  | forbidden
  | notFound
  | internal
deriving DecidableEq

/-- Models `list_recurring_schedules_for_user` (`src/app.py` line 111): decryptable
recurring records under the tenant's digest directory; corrupt blobs are
logged and skipped. -/
def list_recurring_schedules_for_user (st : Store) (api_key : String) :
    List RecurringSched :=
  st.filterMap (fun e =>
    match e with
    | (Path.recurring d _, Blob.recBlob s) =>
        if d = get_api_key_hash api_key then some s else none
    | _ => none)

/-- Models `list_onetime_schedules_for_user` (`src/app.py` line 132): decryptable
one-time records in any bucket under the tenant's digest. -/
def list_onetime_schedules_for_user (st : Store) (api_key : String) :
    List OneTimeSched :=
  st.filterMap (fun e =>
    match e with
    | (Path.onetime _ _ d _, Blob.oneBlob s) =>
        if d = get_api_key_hash api_key then some s else none
    | _ => none)

/-- Models `find_onetime_schedule_for_user` (`src/app.py` line 210): search every
bucket under the tenant's digest for `<schedule_id>.json`, returning the
first decryptable hit together with its bucket; corrupt hits are logged and
skipped. -/
def find_onetime_schedule_for_user (st : Store) (api_key schedule_id : String) :
    Option (OneTimeSched × ((Nat × Nat × Nat) × Nat)) :=
  (st.filterMap (fun e =>
    match e with
    | (Path.onetime d h dg i, Blob.oneBlob s) =>
        if dg = get_api_key_hash api_key ∧ i = schedule_id
        then some (s, (d, h)) else none
    | _ => none)).head?

/-- Models `create_recurring_schedule` (`src/app.py` line 509): after credential
validation, the credential from the Authorization header is injected into
the generated record, the record is saved, and the response is the record
with `api_key` popped.  `valid` is the boundary result of the external
`validate_api_key` call; `newId` the generated UUID; `now` the creation
instant. -/
def create_recurring_schedule (st : Store) (valid : Bool) (api_key : String)
    (newId agent_id : String) (cronE : CronExpr) (message role : String) (now : Nat) :
    Except HErr (Store × JObj) :=
  if !valid then Except.error HErr.unauthorized
  else
    let sc : RecurringSched := ⟨newId, agent_id, api_key, cronE, message, role, now, none⟩
    Except.ok (storePut st (get_recurring_schedule_path api_key newId) (Blob.recBlob sc),
      popKey "api_key" (recurringToDict sc))

/-- Models `create_onetime_schedule` (`src/app.py` line 525). -/
def create_onetime_schedule (st : Store) (valid : Bool) (api_key : String)
    (newId agent_id : String) (ea : Stamp) (message role : String) (now : Nat) :
    Except HErr (Store × JObj) :=
  if !valid then Except.error HErr.unauthorized
  else
    let sc : OneTimeSched := ⟨newId, agent_id, api_key, ea, message, role, now, false⟩
    Except.ok (storePut st (get_onetime_schedule_path api_key ea newId) (Blob.oneBlob sc),
      popKey "api_key" (onetimeToDict sc))

/-- Models `list_recurring_schedules` (`src/app.py` line 541): every listed record
has `api_key` popped before the response is built. -/
def list_recurring_schedules (st : Store) (valid : Bool) (api_key : String) :
    Except HErr (List JObj) :=
  if !valid then Except.error HErr.unauthorized
  else Except.ok ((list_recurring_schedules_for_user st api_key).map
    (fun sc => popKey "api_key" (recurringToDict sc)))

/-- Models `list_onetime_schedules` (`src/app.py` line 553). -/
def list_onetime_schedules (st : Store) (valid : Bool) (api_key : String) :
    Except HErr (List JObj) :=
  if !valid then Except.error HErr.unauthorized
  else Except.ok ((list_onetime_schedules_for_user st api_key).map
    (fun sc => popKey "api_key" (onetimeToDict sc)))

/-- Models `get_recurring_schedule` (`src/app.py` line 565): 404 when absent, 403
on credential mismatch, 500 when the blob fails to unseal, otherwise the
record with `api_key` popped. -/
def get_recurring_schedule (st : Store) (valid : Bool) (api_key schedule_id : String) :
    Except HErr JObj :=
  if !valid then Except.error HErr.unauthorized
  else
    match load_schedule st (get_recurring_schedule_path api_key schedule_id) with
    | Except.error _ => Except.error HErr.internal
    | Except.ok none => Except.error HErr.notFound
    | Except.ok (some b) =>
        if blobApiKey b = some api_key
        then Except.ok (popKey "api_key" (blobToDict b))
        else Except.error HErr.forbidden

/-- Models `get_onetime_schedule` (`src/app.py` line 582). -/
def get_onetime_schedule (st : Store) (valid : Bool) (api_key schedule_id : String) :
    Except HErr JObj :=
  if !valid then Except.error HErr.unauthorized
  else
    match find_onetime_schedule_for_user st api_key schedule_id with
    | none => Except.error HErr.notFound
    | some (sc, _) =>
        if sc.api_key = api_key
        then Except.ok (popKey "api_key" (onetimeToDict sc))
        else Except.error HErr.forbidden

/-- Models `delete_recurring_schedule` endpoint (`src/app.py` line 598): load,
check ownership, delete; returns the new store and whether the file
existed. -/
def delete_recurring_schedule (st : Store) (valid : Bool) (api_key schedule_id : String) :
    Except HErr (Store × Bool) :=
  if !valid then Except.error HErr.unauthorized
  else
    match load_schedule st (get_recurring_schedule_path api_key schedule_id) with
    | Except.error _ => Except.error HErr.internal
    | Except.ok none => Except.error HErr.notFound
    | Except.ok (some b) =>
        if blobApiKey b = some api_key
        then Except.ok (delete_schedule st (get_recurring_schedule_path api_key schedule_id))
        else Except.error HErr.forbidden

/-- Models `delete_onetime_schedule` endpoint (`src/app.py` line 616): find across
buckets, check ownership, delete the found file. -/
def delete_onetime_schedule (st : Store) (valid : Bool) (api_key schedule_id : String) :
    Except HErr (Store × Bool) :=
  if !valid then Except.error HErr.unauthorized
  else
    match find_onetime_schedule_for_user st api_key schedule_id with
    | none => Except.error HErr.notFound
    | some (sc, bucket) =>
        if sc.api_key = api_key
        then Except.ok (delete_schedule st
          (Path.onetime bucket.1 bucket.2 (get_api_key_hash api_key) schedule_id))
        else Except.error HErr.forbidden

/-- Paths holding schedule records, as opposed to execution results. -/
def isSchedulePath : Path → Bool
  | Path.recurring _ _ => true
  | Path.onetime _ _ _ _ => true
  | Path.result _ _ => false

theorem schedulePath_ne_result (p : Path) (h : isSchedulePath p = true)
    (dg i : String) : p ≠ Path.result dg i := by
  cases p with
  | recurring d j => intro hc; cases hc
  | onetime d hr dgq j => intro hc; cases hc
  | result d j => simp [isSchedulePath] at h

theorem delete_schedule_preserves_results (st : Store) (p : Path)
    (h : isSchedulePath p = true) (dg i : String) :
    storeGet (delete_schedule st p).1 (Path.result dg i)
      = storeGet st (Path.result dg i) := by
  unfold delete_schedule
  cases hg : storeGet st p with
  | none => rfl
  | some b => exact storeGet_erase_ne st p (Path.result dg i) (schedulePath_ne_result p h dg i)

/-- C8: no delete of a schedule ever removes or modifies a stored
`ExecutionResult`: the raw unlink used by the dispatch state machine's
claim and termination deletes, the `delete_schedule` helper, and both
user-facing delete endpoints leave every result entry of the store exactly
as it was. -/
theorem deletes_preserve_results (st : Store) (valid : Bool)
    (api_key schedule_id : String) (dg i : String) :
    (∀ p, isSchedulePath p = true →
        storeGet (storeErase st p) (Path.result dg i) = storeGet st (Path.result dg i))
      ∧ (∀ p, isSchedulePath p = true →
          storeGet (delete_schedule st p).1 (Path.result dg i)
            = storeGet st (Path.result dg i))
      ∧ (∀ st1 ex, delete_recurring_schedule st valid api_key schedule_id
            = Except.ok (st1, ex) →
          storeGet st1 (Path.result dg i) = storeGet st (Path.result dg i))
      ∧ (∀ st1 ex, delete_onetime_schedule st valid api_key schedule_id
            = Except.ok (st1, ex) →
          storeGet st1 (Path.result dg i) = storeGet st (Path.result dg i)) := by
  refine ⟨?_, ?_, ?_, ?_⟩
  · intro p hp
    exact storeGet_erase_ne st p (Path.result dg i) (schedulePath_ne_result p hp dg i)
  · intro p hp
    exact delete_schedule_preserves_results st p hp dg i
  · intro st1 ex h
    unfold delete_recurring_schedule at h
    split at h
    · exact absurd h (by simp)
    · split at h
      · exact absurd h (by simp)
      · exact absurd h (by simp)
      · split at h
        · injection h with h3
          have h1 : st1 = (delete_schedule st
              (get_recurring_schedule_path api_key schedule_id)).1 :=
            congrArg Prod.fst h3.symm
          rw [h1]
          exact delete_schedule_preserves_results st _ (by rfl) dg i
        · exact absurd h (by simp)
  · intro st1 ex h
    unfold delete_onetime_schedule at h
    split at h
    · exact absurd h (by simp)
    · split at h
      · exact absurd h (by simp)
      · split at h
        · injection h with h3
          have h1 : st1 = (delete_schedule st _).1 := congrArg Prod.fst h3.symm
          rw [h1]
          exact delete_schedule_preserves_results st _ (by rfl) dg i
        · exact absurd h (by simp)

/-- Witness for C8: the raw unlink of a concrete schedule path leaves a
concrete result entry readable. -/
theorem deletes_preserve_results_witness :
    storeGet (storeErase [(Path.result "t" "s1",
        Blob.resBlob (mkExecutionResult "s1" "one-time" "a" "m" "success" 0 "r" ""))]
        (Path.recurring "t" "s1")) (Path.result "t" "s1")
      = storeGet [(Path.result "t" "s1",
          Blob.resBlob (mkExecutionResult "s1" "one-time" "a" "m" "success" 0 "r" ""))]
          (Path.result "t" "s1") :=
  (deletes_preserve_results
      [(Path.result "t" "s1",
        Blob.resBlob (mkExecutionResult "s1" "one-time" "a" "m" "success" 0 "r" ""))]
      true "k" "s1" "t" "s1").1 (Path.recurring "t" "s1") rfl

theorem hasKey_popKey (k : String) (o : JObj) : hasKey k (popKey k o) = false := by
  unfold hasKey popKey
  rw [List.any_eq_false]
  intro kv hkv
  have := (List.mem_filter.mp hkv).2
  simpa using this

/-- C10: no successful response body of the create, list and get schedule
operations carries the `api_key` field: every handler pops it from each
returned record, for every store and credential. -/
theorem responses_never_contain_api_key (st : Store) (valid : Bool)
    (api_key newId agent_id message role schedule_id : String)
    (cronE : CronExpr) (ea : Stamp) (now : Nat) :
    (∀ st1 o, create_recurring_schedule st valid api_key newId agent_id cronE message role now
        = Except.ok (st1, o) → hasKey "api_key" o = false)
      ∧ (∀ st1 o, create_onetime_schedule st valid api_key newId agent_id ea message role now
          = Except.ok (st1, o) → hasKey "api_key" o = false)
      ∧ (∀ os, list_recurring_schedules st valid api_key = Except.ok os →
          ∀ o ∈ os, hasKey "api_key" o = false)
      ∧ (∀ os, list_onetime_schedules st valid api_key = Except.ok os →
          ∀ o ∈ os, hasKey "api_key" o = false)
      ∧ (∀ o, get_recurring_schedule st valid api_key schedule_id = Except.ok o →
          hasKey "api_key" o = false)
      ∧ (∀ o, get_onetime_schedule st valid api_key schedule_id = Except.ok o →
          hasKey "api_key" o = false) := by
  cases valid with
  | false =>
      refine ⟨?_, ?_, ?_, ?_, ?_, ?_⟩ <;>
        simp [create_recurring_schedule, create_onetime_schedule,
          list_recurring_schedules, list_onetime_schedules,
          get_recurring_schedule, get_onetime_schedule]
  | true =>
      refine ⟨?_, ?_, ?_, ?_, ?_, ?_⟩
      · intro st1 o h
        simp only [create_recurring_schedule, Bool.not_true, Bool.false_eq_true,
          not_false_eq_true, if_neg, Except.ok.injEq, Prod.mk.injEq] at h
        rw [← h.2]
        exact hasKey_popKey _ _
      · intro st1 o h
        simp only [create_onetime_schedule, Bool.not_true, Bool.false_eq_true,
          not_false_eq_true, if_neg, Except.ok.injEq, Prod.mk.injEq] at h
        rw [← h.2]
        exact hasKey_popKey _ _
      · intro os h o ho
        simp only [list_recurring_schedules, Bool.not_true, Bool.false_eq_true,
          not_false_eq_true, if_neg, Except.ok.injEq] at h
        rw [← h] at ho
        obtain ⟨sc, _, hsc⟩ := List.mem_map.mp ho
        rw [← hsc]
        exact hasKey_popKey _ _
      · intro os h o ho
        simp only [list_onetime_schedules, Bool.not_true, Bool.false_eq_true,
          not_false_eq_true, if_neg, Except.ok.injEq] at h
        rw [← h] at ho
        obtain ⟨sc, _, hsc⟩ := List.mem_map.mp ho
        rw [← hsc]
        exact hasKey_popKey _ _
      · intro o h
        unfold get_recurring_schedule at h
        split at h
        · exact absurd h (by simp)
        · split at h
          · exact absurd h (by simp)
          · exact absurd h (by simp)
          · split at h
            · injection h with h3
              rw [← h3]
              exact hasKey_popKey _ _
            · exact absurd h (by simp)
      · intro o h
        unfold get_onetime_schedule at h
        split at h
        · exact absurd h (by simp)
        · split at h
          · exact absurd h (by simp)
          · split at h
            · injection h with h3
              rw [← h3]
              exact hasKey_popKey _ _
            · exact absurd h (by simp)

/-- Witness for C10: the create handler's concrete response on the empty
store has no `api_key` field. -/
theorem responses_never_contain_api_key_witness :
    ∃ p : Store × JObj,
      create_recurring_schedule [] true "k" "i" "a" cronStarExample "m" "user" 0
          = Except.ok p
        ∧ hasKey "api_key" p.2 = false := by
  refine ⟨((storePut [] (get_recurring_schedule_path "k" "i")
      (Blob.recBlob ⟨"i", "a", "k", cronStarExample, "m", "user", 0, none⟩)),
      popKey "api_key" (recurringToDict ⟨"i", "a", "k", cronStarExample, "m", "user", 0, none⟩)),
    rfl, ?_⟩
  exact (responses_never_contain_api_key [] true "k" "i" "a" "m" "user" "i"
    cronStarExample ⟨0, none⟩ 0).1 _ _ rfl

end Switchboard
